import Mathlib

/-!
Verification of the PMVHaven2 scene scraper (scrapers/PMVHaven2.py).

Modelling conventions, used throughout:

* JSON values are the inductive `Json`; Python dicts are association lists in
  insertion order with distinct keys (as produced by the json module).
* Python floats are modelled as rationals, so `DURATION_TOLERANCE_SECONDS = 10.0`
  becomes `(10 : ℚ)` and scores are exact rationals.
* Character classes follow the ASCII behaviour of the regexes in the source;
  regex search is translated by hand with leftmost-match, greedy-with-backtracking
  semantics, which for the fixed patterns used here reduces to the explicit
  scanning functions below.
* Network calls are parameters: `watch` models `get_watch_page` keyed by the id
  value, `searchF` models `search_videos` keyed by query and attempt number, and
  `sim` models `difflib.SequenceMatcher(None, a, b).ratio()`.
* A Python `fail msg` (print the error JSON, then SystemExit 1) is
  `.error (.fatal msg)`; an uncaught Python exception is `.error (.exn info)`.
-/

namespace PMVH

/-- A JSON value as handed around by the scraper. -/
inductive Json where
  | null
  | bool (b : Bool)
  | num (q : ℚ)
  | str (s : String)
  | arr (elems : List Json)
  | obj (fields : List (String × Json))

/-- Python truthiness of a JSON value (`bool(x)`). -/
def Json.truthy : Json → Bool
  | .null => false
  | .bool b => b
  | .num q => decide (q ≠ 0)
  | .str s => decide (s ≠ "")
  | .arr xs => !xs.isEmpty
  | .obj kvs => !kvs.isEmpty

/-- Whether a JSON value is a mapping (`isinstance(x, dict)`). -/
def Json.isObj : Json → Bool
  | .obj _ => true
  | _ => false

/-- First binding of a key in an association list (dict keys are distinct). -/
def lookupKey (key : String) : List (String × Json) → Option Json
  | [] => none
  | (k, v) :: rest => if k = key then some v else lookupKey key rest

/-- Models `d.get(key)` on a dict. On non-mappings CPython raises
AttributeError; callers that can receive non-mappings handle that case
explicitly, the remaining call sites only ever see mappings. -/
def jget (j : Json) (key : String) : Option Json :=
  match j with
  | .obj kvs => lookupKey key kvs
  | _ => none

/-- Whether an object literally carries a key (`key in d` for dicts). -/
def jhasKey (j : Json) (key : String) : Bool :=
  match j with
  | .obj kvs => kvs.any fun kv => kv.1 = key
  | _ => false

/-- Models the Python str() conversion used by f-strings. Exact for strings,
booleans and None; approximate for numbers and containers, which only ever
reach log or error message text, never a property proved below. -/
def pyStr : Json → String
  | .null => "None"
  | .bool true => "True"
  | .bool false => "False"
  | .str s => s
  | .num q => toString q
  | .arr _ => "[...]"
  | .obj _ => "\x7b...\x7d"

/-- The ASCII whitespace class of the regex `\s` and of str.strip(). -/
def pyWs (c : Char) : Bool :=
  c == ' ' || c == '\t' || c == '\n' || c == '\r' || c == '\x0b' || c == '\x0c'

/-- The word-character class `\w` restricted to ASCII: alphanumerics and the
underscore. -/
def isWordC (c : Char) : Bool := c.isAlphanum || c == '_'

/-- The character class `[a-f0-9]` of the scene-id pattern. -/
def isHexLower (c : Char) : Bool := c.isDigit || (decide ('a' ≤ c) && decide (c ≤ 'f'))

/-- The character class `[A-Za-z0-9_-]` of the storage-key pattern. -/
def isWordDash (c : Char) : Bool := c.isAlphanum || c == '_' || c == '-'

/-- Models `os.path.basename` on POSIX: the part after the last slash. -/
def basenameL (l : List Char) : List Char :=
  (l.reverse.takeWhile fun c => c != '/').reverse

/-- Models `value.split("?")[0]`: the part before the first question mark. -/
def takeBeforeQm (l : List Char) : List Char := l.takeWhile (· != '?')

/-- Models `re.sub(r"\.[^.]+$", "", name)`: drop a final dot-extension when the
text after the last dot is non-empty. -/
def stripExtL (l : List Char) : List Char :=
  let r := l.reverse
  let ext := r.takeWhile (· != '.')
  if ext.length < r.length ∧ ext ≠ [] then (r.drop (ext.length + 1)).reverse else l

/-- Whether the first list is an initial segment of the second. -/
def startsWithL : List Char → List Char → Bool
  | [], _ => true
  | _ :: _, [] => false
  | a :: as, b :: bs => a == b && startsWithL as bs

/-- The suffix after the first occurrence of the literal separator `_-_`,
if any; models `name.split("_-_", 1)[1]`. -/
def afterSep : List Char → Option (List Char)
  | [] => none
  | c :: rest =>
    if c == '_' && startsWithL ['-', '_'] rest then some (rest.drop 2)
    else afterSep rest

/-- Models the `_-_` rule of `_build_search_query`: discard everything up to
and including the first `_-_`. -/
def dropBeforeSepL (l : List Char) : List Char :=
  match afterSep l with
  | some rest => rest
  | none => l

/-- Models `name.replace(a, b)` for single characters. -/
def replCh (a b : Char) (l : List Char) : List Char :=
  l.map fun c => if c = a then b else c

/-- Length of the maximal digit run at the head of the list. -/
def digitRunLen : List Char → Nat
  | c :: rest => if c.isDigit then digitRunLen rest + 1 else 0
  | [] => 0

/-- Length of the maximal alphanumeric run at the head of the list. -/
def alnumRunLen : List Char → Nat
  | c :: rest => if c.isAlphanum then alnumRunLen rest + 1 else 0
  | [] => 0

/-- Length of the maximal `[A-Za-z0-9_-]` run at the head of the list. -/
def wordDashRunLen : List Char → Nat
  | c :: rest => if isWordDash c then wordDashRunLen rest + 1 else 0
  | [] => 0

/-- Whether `\s(\d{8,})\s` matches starting at the head character `c`
(with `rest` the remainder): `c` is whitespace, then at least eight digits,
then whitespace. Greedy backtracking cannot shorten the digit run, because
the character right after a maximal run is never a digit. -/
def wsDigitsWsAt (c : Char) (rest : List Char) : Bool :=
  pyWs c && decide (8 ≤ digitRunLen rest) &&
    (match rest.drop (digitRunLen rest) with
     | d :: _ => pyWs d
     | [] => false)

/-- Index of the leftmost match of `\s(\d{8,})\s` (the match starts at the
whitespace character, exactly as `match.start()` does). -/
def findWsRunIdx : List Char → Option Nat
  | [] => none
  | c :: rest =>
    if wsDigitsWsAt c rest then some 0 else (findWsRunIdx rest).map (· + 1)

/-- Whether `\b(\d{8,})` matches at the current position, given the previous
character: a word boundary (start of string, or a non-word character before a
digit) followed by at least eight digits. -/
def boundaryRunAt (prev : Option Char) (l : List Char) : Bool :=
  (match prev with
   | none => true
   | some p => !isWordC p) && decide (8 ≤ digitRunLen l)

/-- Index of the leftmost match of `\b(\d{8,})`. -/
def findBoundaryRunIdx : Option Char → List Char → Option Nat
  | _, [] => none
  | prev, c :: rest =>
    if boundaryRunAt prev (c :: rest) then some 0
    else (findBoundaryRunIdx (some c) rest).map (· + 1)

/-- The timestamp-truncation step of `_build_search_query`: cut the string at
the start of the first long digit run found by the two regex searches. -/
def truncAtDigitsL (l : List Char) : List Char :=
  match findWsRunIdx l with
  | some i => l.take i
  | none =>
    match findBoundaryRunIdx none l with
    | some i => l.take i
    | none => l

/-- Models `re.sub(r"\s+", " ", name)`: every whitespace run becomes one
space. -/
def collapseRuns : List Char → List Char
  | [] => []
  | [c] => if pyWs c then [' '] else [c]
  | c :: d :: rest =>
    if pyWs c && pyWs d then collapseRuns (d :: rest)
    else (if pyWs c then ' ' else c) :: collapseRuns (d :: rest)

/-- Drop trailing whitespace characters. -/
def dropTrailWs : List Char → List Char
  | [] => []
  | c :: rest =>
    let r := dropTrailWs rest
    if r = [] ∧ pyWs c then [] else c :: r

/-- Models `str.strip()` for the ASCII whitespace that can occur here. -/
def stripWsL (l : List Char) : List Char := dropTrailWs (l.dropWhile pyWs)

/-- The final cleanup of `_build_search_query`: collapse whitespace runs, then
strip both ends. -/
def collapseWsL (l : List Char) : List Char := stripWsL (collapseRuns l)

/-- Models `_build_search_query`: basename, drop the extension, drop through
the first `_-_`, turn underscores and dashes into spaces, truncate at the
first recognized long digit run, and normalize whitespace. -/
def build_search_query (value : String) : String :=
  if value = "" then ""
  else
    let name := basenameL value.toList
    let name := stripExtL name
    let name := dropBeforeSepL name
    let name := replCh '-' ' ' (replCh '_' ' ' name)
    let name := truncAtDigitsL name
    String.mk (collapseWsL name)

/-- Whether `(\d+)_([A-Za-z0-9]+)` matches at the head of the list. Greedy
backtracking cannot shorten the digit run (characters inside the run are not
underscores), so the groups are the maximal digit run, then the maximal
alphanumeric run after the underscore. -/
def combinedAt (l : List Char) : Option (List Char × List Char) :=
  let m := digitRunLen l
  if 0 < m then
    match l.drop m with
    | '_' :: rest2 =>
      let a := alnumRunLen rest2
      if 0 < a then some (l.take m, rest2.take a) else none
    | _ => none
  else none

/-- Leftmost match of `(\d+)_([A-Za-z0-9]+)`. -/
def findCombined : List Char → Option (List Char × List Char)
  | [] => none
  | c :: rest =>
    match combinedAt (c :: rest) with
    | some p => some p
    | none => findCombined rest

/-- Leftmost match of `\d+`: the first maximal digit run. -/
def firstDigitRun : List Char → Option (List Char)
  | [] => none
  | c :: rest =>
    if c.isDigit then some ((c :: rest).take (digitRunLen (c :: rest)))
    else firstDigitRun rest

/-- Models `_extract_filename_tokens`: on the stem of the filename, a combined
digits-underscore-suffix match yields three tokens, else a bare digit run one
token, else a fully alphanumeric stem is its own token, else no tokens. -/
def extract_filename_tokens (filename : String) : List String :=
  if filename = "" then []
  else
    let name := stripExtL (basenameL (takeBeforeQm filename.toList))
    match findCombined name with
    | some (ts, suf) => [String.mk (ts ++ '_' :: suf), String.mk ts, String.mk suf]
    | none =>
      match firstDigitRun name with
      | some run => [String.mk run]
      | none =>
        if !name.isEmpty && name.all Char.isAlphanum then [String.mk name] else []

/-- Leftmost match of `([a-f0-9]{24})`: the first window of 24 lowercase hex
characters. -/
def findHex24 : List Char → Option String
  | [] => none
  | c :: rest =>
    if decide (24 ≤ (c :: rest).length) && ((c :: rest).take 24).all isHexLower then
      some (String.mk ((c :: rest).take 24))
    else findHex24 rest

/-- Models `_extract_scene_id`. -/
def extract_scene_id (text : String) : Option String := findHex24 text.toList

/-- Whether `([A-Za-z0-9_-]+\.[A-Za-z0-9]+)$` matches starting at the head:
a non-empty word-dash run, a dot, then a non-empty alphanumeric run reaching
the end of the string. -/
def storageKeyAt (l : List Char) : Bool :=
  let w := wordDashRunLen l
  decide (0 < w) &&
    (match l.drop w with
     | '.' :: rest => !rest.isEmpty && rest.all Char.isAlphanum
     | _ => false)

/-- Leftmost match of the storage-key pattern; the match always extends to the
end of the string, so the group is the whole remaining suffix. -/
def findStorageKeyL : List Char → Option (List Char)
  | [] => none
  | c :: rest =>
    if storageKeyAt (c :: rest) then some (c :: rest) else findStorageKeyL rest

/-- Models `_extract_storage_key`. -/
def extract_storage_key (value : String) : Option String :=
  if value = "" then none
  else
    let name := basenameL (takeBeforeQm value.toList)
    match findStorageKeyL name with
    | some l => some (String.mk l)
    | none => if '.' ∈ name then some (String.mk name) else none

/-- Numeric value of a digit list. -/
def digitsVal (ds : List Char) : ℕ :=
  ds.foldl (fun acc c => acc * 10 + (c.toNat - '0'.toNat)) 0

/-- Exponent part of a float literal, after the e or E. -/
def parseExp (l : List Char) : Option Int :=
  match l with
  | '+' :: rest =>
    if rest ≠ [] ∧ rest.all Char.isDigit then some (digitsVal rest : Int) else none
  | '-' :: rest =>
    if rest ≠ [] ∧ rest.all Char.isDigit then some (-(digitsVal rest : Int)) else none
  | _ => if l ≠ [] ∧ l.all Char.isDigit then some (digitsVal l : Int) else none

/-- Unsigned decimal float literal: digits, an optional dot and fraction, an
optional exponent. At least one digit must be present around the dot. -/
def parseDecimalBody (l : List Char) : Option ℚ :=
  let ip := l.takeWhile Char.isDigit
  let rest := l.drop ip.length
  match rest with
  | [] => if ip ≠ [] then some (digitsVal ip : ℚ) else none
  | '.' :: rest2 =>
    let fp := rest2.takeWhile Char.isDigit
    let rest3 := rest2.drop fp.length
    if ip = [] ∧ fp = [] then none
    else
      let base : ℚ := (digitsVal ip : ℚ) + (digitsVal fp : ℚ) / ((10 : ℚ) ^ fp.length)
      match rest3 with
      | [] => some base
      | 'e' :: e => (parseExp e).map fun k => base * (10 : ℚ) ^ k
      | 'E' :: e => (parseExp e).map fun k => base * (10 : ℚ) ^ k
      | _ => none
  | 'e' :: e =>
    if ip = [] then none else (parseExp e).map fun k => (digitsVal ip : ℚ) * (10 : ℚ) ^ k
  | 'E' :: e =>
    if ip = [] then none else (parseExp e).map fun k => (digitsVal ip : ℚ) * (10 : ℚ) ^ k
  | _ => none

/-- Models Python float(str) for the finite decimal and exponent literals that
occur as duration strings; the special spellings inf and nan and underscore
digit separators are not modelled (no claim depends on them). -/
def pyFloatOfStr (s : String) : Option ℚ :=
  let l := dropTrailWs (s.toList.dropWhile pyWs)
  match l with
  | '+' :: rest => parseDecimalBody rest
  | '-' :: rest => (parseDecimalBody rest).map Neg.neg
  | _ => parseDecimalBody l

/-- Models `_coerce_duration`. A Python bool is an int, so booleans coerce to
0 or 1; ints and floats pass through; strings go through float(). -/
def coerce_duration : Json → Option ℚ
  | .num q => some q
  | .bool b => some (if b then 1 else 0)
  | .str s => pyFloatOfStr s
  | _ => none

/-- The durations collected from a `fingerprints` value: only list entries
that are mappings contribute, via their coercible `duration` field. -/
def fingerprintDurations : Option Json → List ℚ
  | some (.arr fps) =>
    fps.filterMap fun fp =>
      match fp with
      | .obj _ => (jget fp "duration").bind coerce_duration
      | _ => none
  | _ => []

/-- Models `_extract_local_durations`: the coercible values at the top-level
`duration`, then at `scene.duration` and `scene.fingerprints` when `scene` is
a mapping, else at the top-level `fingerprints`. Appends in collection order,
without deduplication. -/
def extract_local_durations (params : Json) : List ℚ :=
  match params with
  | .obj _ =>
    let top := ((jget params "duration").bind coerce_duration).toList
    match jget params "scene" with
    | some (.obj skvs) =>
      top ++ ((jget (.obj skvs) "duration").bind coerce_duration).toList
          ++ fingerprintDurations (jget (.obj skvs) "fingerprints")
    | _ => top ++ fingerprintDurations (jget params "fingerprints")
  | _ => []

/-- Models `_extract_candidate_duration`: the first coercible value among the
duration-like keys. -/
def extract_candidate_duration (video : Json) : Option ℚ :=
  ((jget video "duration").bind coerce_duration) <|>
  ((jget video "durationSeconds").bind coerce_duration) <|>
  ((jget video "length").bind coerce_duration) <|>
  ((jget video "runtime").bind coerce_duration) <|>
  ((jget video "runTime").bind coerce_duration) <|>
  ((jget video "time").bind coerce_duration)

/-- Models the Python builtin abs on a rational. -/
def pyAbs (q : ℚ) : ℚ := if q < 0 then -q else q

/-- Models `_duration_matches` with `DURATION_TOLERANCE_SECONDS = 10.0`. -/
def duration_matches (candidate_duration : Option ℚ) (local_durations : List ℚ) : Bool :=
  match candidate_duration with
  | none => false
  | some cd =>
    if local_durations = [] then false
    else local_durations.any fun x => decide (pyAbs (cd - x) ≤ 10)

/-- A pipeline-level failure: `fatal` models a fail() call (the error JSON is
printed and SystemExit 1 raised), `exn` an uncaught Python exception. -/
inductive Failure where
  | fatal (msg : String)
  | exn (info : String)

/-- Models `re.sub(r"[^a-zA-Z0-9]+", "-", value)`: every maximal run of
non-alphanumerics becomes one dash. -/
def dashRuns : List Char → List Char
  | [] => []
  | [c] => if c.isAlphanum then [c] else ['-']
  | c :: d :: rest =>
    if !c.isAlphanum && !d.isAlphanum then dashRuns (d :: rest)
    else (if c.isAlphanum then c else '-') :: dashRuns (d :: rest)

/-- Models `.strip("-")`. -/
def stripDashes (l : List Char) : List Char :=
  ((l.dropWhile (· == '-')).reverse.dropWhile (· == '-')).reverse

/-- Models `_slugify`. -/
def slugify (value : String) : String :=
  String.mk ((stripDashes (dashRuns value.toList)).map Char.toLower)

/-- Models python str.strip() at the String level. -/
def pyStripStr (s : String) : String := String.mk (stripWsL s.toList)

/-- Models `_pick_image`. `none` models the TypeError CPython raises when a
truthy `thumbnails` value is not iterable. A truthy string iterates into its
characters and a dict into its keys, so those cases return the first
character and the first key, both strings. -/
def pick_image (video : Json) : Option Json :=
  let fallback : Option Json :=
    match jget video "thumbnails" with
    | some t =>
      if t.truthy then
        match t with
        | .arr xs =>
          some (match xs.find? (fun x => match x with | .str _ => true | _ => false) with
                | some s => s
                | none => .str "")
        | .str s => some (.str (match s.toList with | c :: _ => String.mk [c] | [] => ""))
        | .obj kvs => some (match kvs with | (k, _) :: _ => .str k | [] => .str "")
        | _ => none
      else some (.str "")
    | none => some (.str "")
  match jget video "thumbnailUrl" with
  | some t => if t.truthy then some t else fallback
  | none => fallback

/-- Models `_normalize_names`: a list keeps its string entries with truthy
strip, a string is split on commas and stripped, anything else is empty. -/
def normalize_names (value : Json) : List String :=
  let names : List Json :=
    match value with
    | .arr xs => xs
    | .str s => (s.splitOn ",").map fun t => .str (pyStripStr t)
    | _ => []
  names.filterMap fun n =>
    match n with
    | .str s => if pyStripStr s ≠ "" then some s else none
    | _ => none

/-- Models `_extract_studio_url`: the first creator-URL key holding a string
with truthy strip. -/
def extract_studio_url (video : Json) : Option String :=
  let check (k : String) : Option String :=
    match jget video k with
    | some (.str s) => if pyStripStr s ≠ "" then some s else none
    | _ => none
  check "creatorUrl" <|> check "creatorURL" <|> check "creatorPage" <|> check "creatorLink"

/-- The value of the Python expression `x or d`: `x` when truthy, else `d`;
a missing key behaves like None. -/
def orElseJson (x : Option Json) (d : Json) : Json :=
  match x with
  | some v => if v.truthy then v else d
  | none => d

/-- First truthy value of a chain of lookups (`a or b or ...` ending falsy). -/
def firstTruthy : List (Option Json) → Option Json
  | [] => none
  | x :: rest =>
    match x with
    | some v => if v.truthy then some v else firstTruthy rest
    | none => firstTruthy rest

/-- Models `_get_video_id`: the first truthy of `_id`, `id`, `videoId`;
`none` stands for a falsy result. -/
def get_video_id (item : Json) : Option Json :=
  firstTruthy [jget item "_id", jget item "id", jget item "videoId"]

/-- Models `_build_scene`. The result is `none` exactly when CPython would
raise: a truthy non-string title reaching `_slugify`, a truthy non-string
date value reaching `.split`, or a truthy non-iterable `thumbnails` value. -/
def build_scene (video : Json) : Option Json :=
  let titleJ := orElseJson (jget video "title") (.str "")
  match titleJ with
  | .str title =>
    let idJ := orElseJson (jget video "_id") (.str "")
    let slug := slugify title
    let vid := pyStr idJ
    let url :=
      if slug ≠ "" ∧ idJ.truthy = true then
        "https://pmvhaven.com/video/" ++ slug ++ "_" ++ vid
      else "https://pmvhaven.com/video/" ++ vid
    let tags := normalize_names (orElseJson (jget video "tags") (.arr []))
    let performers := normalize_names (orElseJson (jget video "starsTags") (.arr []))
    let creatorJ := orElseJson (jget video "creator") (.arr [])
    let studio_name : Option Json :=
      match creatorJ with
      | .arr [] => none
      | .arr (x :: _) => some x
      | v => some v
    let studio_url := extract_studio_url video
    match pick_image video with
    | none => none
    | some image =>
      let dateOpt : Option String :=
        match firstTruthy [jget video "uploadDate", jget video "isoDate"] with
        | some (.str d) => some ((d.splitOn "T").headD "")
        | some _ => none
        | none => some ""
      match dateOpt with
      | none => none
      | some date =>
        let base := [("title", Json.str title), ("url", Json.str url),
          ("image", image), ("date", Json.str date),
          ("performers", Json.arr (performers.map fun n => Json.obj [("name", Json.str n)])),
          ("tags", Json.arr (tags.map fun n => Json.obj [("name", Json.str n)]))]
        let detailsPart : List (String × Json) :=
          match jget video "description" with
          | some d => if d.truthy then [("details", d)] else []
          | none => []
        let nameTruthy := match studio_name with | some v => v.truthy | none => false
        let studioFields :=
          (match studio_name with
           | some v => if v.truthy then [("name", v)] else []
           | none => []) ++
          (match studio_url with
           | some u => [("url", Json.str u)]
           | none => [])
        let studioPart : List (String × Json) :=
          if nameTruthy = true ∨ studio_url.isSome = true then
            [("studio", Json.obj studioFields)]
          else []
        some (Json.obj (base ++ detailsPart ++ studioPart))
  | _ => none

/-- Models one entry of `_build_selection_options`; `none` models the
TypeError of a truthy non-string title or a bad thumbnails value. -/
def sel_entry (item : Json) : Option Json :=
  let vidJ := get_video_id item
  let titleJ := orElseJson (jget item "title") (.str "")
  match titleJ with
  | .str title =>
    let slug := slugify title
    let url :=
      match vidJ with
      | some v =>
        if slug ≠ "" then "https://pmvhaven.com/video/" ++ slug ++ "_" ++ pyStr v else ""
      | none => ""
    match pick_image item with
    | none => none
    | some thumb =>
      some (.obj [("title", .str title), ("id", vidJ.getD (.str "")),
                  ("url", .str url), ("thumbnail", thumb)])
  | _ => none

/-- The option entries built by the loop of `_build_selection_options`:
non-mapping items are skipped, an entry failure aborts the whole build. -/
def sel_entries : List Json → Option (List Json)
  | [] => some []
  | item :: rest =>
    match item with
    | .obj _ =>
      match sel_entry item with
      | none => none
      | some e => (sel_entries rest).map fun l => e :: l
    | _ => sel_entries rest

/-- Models `_build_selection_options`; `none` models an exception while
building an entry. -/
def build_selection_options (candidates : List Json) : Option Json :=
  (sel_entries candidates).map fun opts => Json.obj [("results", Json.arr opts)]

/-- Models `_calculate_score`, with `sim` standing for the difflib
SequenceMatcher ratio on the two lower-cased strings. `none` models the
AttributeError of a truthy non-string title meeting .lower(). -/
def calculate_score (sim : String → String → ℚ) (video : Json) (query_title : String)
    (local_durations : List ℚ) : Option ℚ :=
  let video_titleJ := (jget video "title").getD (.str "")
  let baseOpt : Option ℚ :=
    if query_title ≠ "" ∧ video_titleJ.truthy = true then
      match video_titleJ with
      | .str s => some (sim query_title.toLower s.toLower * 100)
      | _ => none
    else some 0
  baseOpt.map fun base =>
    base + (if local_durations ≠ [] ∧
        duration_matches (extract_candidate_duration video) local_durations = true
      then 50 else 0)

/-- Insertion into a descending-by-score list; an incoming element goes in
front of the first element with a smaller or equal score, which makes the
sort below stable exactly like list.sort(key=..., reverse=True). -/
def insertDesc (x : ℚ × Json) : List (ℚ × Json) → List (ℚ × Json)
  | [] => [x]
  | y :: ys => if y.1 ≤ x.1 then x :: y :: ys else y :: insertDesc x ys

/-- Stable descending sort by score. -/
def sortScoredDesc : List (ℚ × Json) → List (ℚ × Json)
  | [] => []
  | x :: xs => insertDesc x (sortScoredDesc xs)

mutual
/-- Models `_iter_strings`: every string in the value, depth first, dict
values in insertion order. -/
def json_strings : Json → List String
  | .str s => [s]
  | .arr xs => jstringsList xs
  | .obj kvs => jstringsPairs kvs
  | _ => []
/-- Strings of a list of values. -/
def jstringsList : List Json → List String
  | [] => []
  | j :: rest => json_strings j ++ jstringsList rest
/-- Strings of the values of dict entries. -/
def jstringsPairs : List (String × Json) → List String
  | [] => []
  | (_, j) :: rest => json_strings j ++ jstringsPairs rest
end

/-- Models the Python substring test `needle in haystack`. -/
def containsSub (needle : List Char) : List Char → Bool
  | [] => startsWithL needle []
  | c :: rest => startsWithL needle (c :: rest) || containsSub needle rest

/-- Models `_video_contains_token`: some token occurs as a substring of some
string field, recursively. -/
def video_contains_token (video : Json) (tokens : List String) : Bool :=
  if tokens = [] then false
  else (json_strings video).any fun value =>
    tokens.any fun token => containsSub token.toList value.toList

/-- The pre-filter and cap of `_handle_search_results`: with more than ten
candidates and at least one token, keep the token-matching candidates unless
that empties the list, then take the first five. -/
def candidates_to_process (candidates : List Json) (tokens : List String) : List Json :=
  let filtered_candidates :=
    if 10 < candidates.length ∧ tokens ≠ [] then
      let filtered := candidates.filter fun c => video_contains_token c tokens
      if filtered.isEmpty then candidates else filtered
    else candidates
  filtered_candidates.take 5

/-- The query text scored against titles: the tokens joined by spaces. -/
def query_title_of (tokens : List String) : String :=
  if tokens = [] then "" else String.intercalate " " tokens

/-- The per-candidate try in `_handle_search_results`: a SystemExit raised by
fail() inside the fetch is not an Exception and escapes; any other exception
is logged and the candidate skipped. -/
def try_fetch (fetch : Json → Except Failure (Option Json)) (c : Json) :
    Except String (Option Json) :=
  match fetch c with
  | .ok od => .ok od
  | .error (.fatal m) => .error m
  | .error (.exn _) => .ok none

/-- The sequential detail-fetch loop over the capped candidates. -/
def fetch_details_loop (f : Json → Except String (Option Json)) :
    List Json → Except String (List Json)
  | [] => .ok []
  | c :: rest =>
    match f c with
    | .error m => .error m
    | .ok od =>
      match fetch_details_loop f rest with
      | .error m => .error m
      | .ok l => .ok (od.toList ++ l)

/-- The score-and-pair loop of `_handle_search_results`; `none` models an
exception raised while scoring a candidate. -/
def scored_candidates_of (sim : String → String → ℚ) (query_title : String)
    (local_durations : List ℚ) : List Json → Option (List (ℚ × Json))
  | [] => some []
  | v :: rest =>
    match calculate_score sim v query_title local_durations with
    | none => none
    | some s =>
      (scored_candidates_of sim query_title local_durations rest).map fun l => (s, v) :: l

/-- The scored and sorted candidate list of `_handle_search_results`. -/
def rankedOf (sim : String → String → ℚ) (details : List Json) (query_title : String)
    (local_durations : List ℚ) : Option (List (ℚ × Json)) :=
  (scored_candidates_of sim query_title local_durations details).map sortScoredDesc

/-- Return the built scene, or the uncaught exception from `_build_scene`. -/
def scene_or_exn (video : Json) : Except Failure Json :=
  match build_scene video with
  | some s => .ok s
  | none => .error (.exn "TypeError in _build_scene")

/-- Return the built selection options, or the uncaught exception. -/
def options_or_exn (candidates : List Json) : Except Failure Json :=
  match build_selection_options candidates with
  | some j => .ok j
  | none => .error (.exn "TypeError in _build_selection_options")

/-- Models `_handle_search_results`: pre-filter and cap, fetch details
sequentially, abort when none survive, score and sort, then decide between
the best video, the first duration-matching video, or a top-3 shortlist. -/
def handle_search_results (fetch : Json → Except Failure (Option Json))
    (sim : String → String → ℚ) (candidates : List Json) (tokens : List String)
    (local_durations : List ℚ) : Except Failure Json :=
  let query_title := query_title_of tokens
  match fetch_details_loop (try_fetch fetch) (candidates_to_process candidates tokens) with
  | .error m => .error (.fatal m)
  | .ok results_with_details =>
    if results_with_details.isEmpty then
      .error (.fatal "No valid video details found from search results")
    else
      match rankedOf sim results_with_details query_title local_durations with
      | none => .error (.exn "error while scoring candidates")
      | some scored_candidates =>
        match scored_candidates with
        | [] => options_or_exn (candidates.take 3)
        | (_, best_video) :: _ =>
          let match_duration := extract_candidate_duration best_video
          if local_durations ≠ [] ∧ duration_matches match_duration local_durations = false then
            match scored_candidates.find?
                (fun sv => duration_matches (extract_candidate_duration sv.2) local_durations) with
            | some (_, video) => scene_or_exn video
            | none => options_or_exn (((sortScoredDesc scored_candidates).take 3).map (·.2))
          else scene_or_exn best_video

/-- Models the Python expression `"error" in data` for the value shapes a
response can take: key test on dicts, membership on lists, substring test on
strings; on other values CPython raises TypeError. -/
def py_in (key : String) : Json → Except Failure Bool
  | .obj kvs => .ok (kvs.any fun kv => kv.1 == key)
  | .arr xs => .ok (xs.any fun x => match x with | .str s => s == key | _ => false)
  | .str s => .ok (containsSub key.toList s.toList)
  | _ => .error (.exn "TypeError: argument not iterable")

/-- Models `_extract_video_candidates`; the AttributeError of calling .get on
a non-mapping response is an exception. -/
def extract_video_candidates (data : Json) : Except Failure (List Json) :=
  match data with
  | .obj _ =>
    match jget data "videos" with
    | some (.arr xs) => .ok xs
    | _ =>
      match jget data "results" with
      | some (.arr xs) => .ok xs
      | _ =>
        match jget data "data" with
        | some (.arr xs) => .ok xs
        | some (.obj nkvs) =>
          if nkvs.isEmpty then .ok []
          else
            match lookupKey "videos" nkvs with
            | some (.arr xs) => .ok xs
            | _ =>
              match lookupKey "results" nkvs with
              | some (.arr xs) => .ok xs
              | _ => .ok []
        | _ => .ok []
  | _ => .error (.exn "AttributeError: get")

/-- Models `_get_video_details`, with `watch` standing for `get_watch_page`
applied to the id value (a transport failure is the fatal branch inside
`_get_json`). -/
def get_video_details (watch : Json → Except String Json) (video_id : Json) :
    Except Failure Json :=
  match watch video_id with
  | .error m => .error (.fatal m)
  | .ok data =>
    match py_in "error" data with
    | .error f => .error f
    | .ok true => .ok data
    | .ok false =>
      match (jget data "data").bind (fun d => jget d "video") with
      | some (.obj kvs) => .ok (.obj kvs)
      | _ => .error (.fatal ("Video data not found in watch-page response: " ++ pyStr data))

/-- Models `_fetch_candidate_details`. -/
def fetch_candidate_details (watch : Json → Except String Json) (candidate : Json) :
    Except Failure (Option Json) :=
  match get_video_id candidate with
  | none => .ok none
  | some vid =>
    match get_video_details watch vid with
    | .error f => .error f
    | .ok details =>
      match py_in "error" details with
      | .error f => .error f
      | .ok true => .ok none
      | .ok false => .ok (some details)

/-- Models `_get_video_by_id`. -/
def get_video_by_id (watch : Json → Except String Json) (video_id : Json) :
    Except Failure Json :=
  match get_video_details watch video_id with
  | .error f => .error f
  | .ok video =>
    match py_in "error" video with
    | .error f => .error f
    | .ok true => .ok video
    | .ok false => scene_or_exn video

/-- One attempt of the loop in `_search_videos_with_retries`: an error-keyed
response is returned as the result, a response with candidates is handed to
`_handle_search_results`, an empty one falls through to `next`. -/
def search_attempt_step (fetch : Json → Except Failure (Option Json))
    (sim : String → String → ℚ) (data : Json) (tokens : List String)
    (local_durations : List ℚ) (next : Except Failure Json) : Except Failure Json :=
  match py_in "error" data with
  | .error f => .error f
  | .ok true => .ok data
  | .ok false =>
    match extract_video_candidates data with
    | .error f => .error f
    | .ok candidates =>
      if candidates.isEmpty then next
      else handle_search_results fetch sim candidates tokens local_durations

/-- Models `_search_videos_with_retries`: the three-iteration loop unrolled,
each attempt issuing the identical query; `searchF` is the search response
indexed by query and attempt number. -/
def search_videos_with_retries (fetch : Json → Except Failure (Option Json))
    (sim : String → String → ℚ) (searchF : String → Nat → Json) (query : String)
    (tokens : List String) (local_durations : List ℚ) : Except Failure Json :=
  search_attempt_step fetch sim (searchF query 0) tokens local_durations
    (search_attempt_step fetch sim (searchF query 1) tokens local_durations
      (search_attempt_step fetch sim (searchF query 2) tokens local_durations
        (.error (.fatal ("No search results for query \x27" ++ query ++ "\x27 after retries")))))

/-- The string view of `dig(params, key) or ""`: empty for a missing or falsy
value, the string itself, else the TypeError a truthy non-string later causes
inside the regex helpers. -/
def truthy_str_of (x : Option Json) : Except Failure String :=
  match x with
  | some v =>
    if v.truthy then
      match v with
      | .str s => .ok s
      | _ => .error (.exn "TypeError: expected string")
    else .ok ""
  | none => .ok ""

/-- Models `sceneByFragment`. -/
def sceneByFragment (watch : Json → Except String Json)
    (searchF : String → Nat → Json) (sim : String → String → ℚ) (params : Json) :
    Except Failure Json :=
  match truthy_str_of (jget params "filename") with
  | .error f => .error f
  | .ok filename =>
    match truthy_str_of (jget params "title") with
    | .error f => .error f
    | .ok title =>
      let local_durations := extract_local_durations params
      match extract_scene_id filename <|> extract_scene_id title with
      | some sid => get_video_by_id watch (.str sid)
      | none =>
        let storage_key := extract_storage_key filename <|> extract_storage_key title
        let query_source :=
          match storage_key with
          | some k => if k ≠ "" then k else (if title ≠ "" then title else filename)
          | none => if title ≠ "" then title else filename
        let query := build_search_query query_source
        let tokens := extract_filename_tokens filename
        if query = "" then
          .error (.fatal "Did not find a usable search query from fragment input")
        else
          search_videos_with_retries (fetch_candidate_details watch) sim searchF query
            tokens local_durations

/-- The JSON object printed for a failure, as fail() and the top-level
exception handler produce it. -/
def failure_output : Failure → Json
  | .fatal m => .obj [("error", .str m)]
  | .exn info => .obj [("error", .str ("Unhandled exception in scraper: " ++ info))]

/-- Models the entry block under main: argument check, stdin check, JSON
decode, method dispatch, and the printed JSON object with the exit status.
`decode` stands for json.loads, `runURL` and `runFrag` for the two scrape
operations. -/
def main_dispatch (runURL runFrag : Json → Except Failure Json) (argv : List String)
    (stdin : String) (decode : String → Except String Json) : Json × Nat :=
  match argv with
  | _ :: method :: _ =>
    if pyStripStr stdin = "" then
      (.obj [("error", .str "No JSON input provided on stdin")], 1)
    else
      match decode stdin with
      | .error e => (.obj [("error", .str ("Invalid JSON input: " ++ e))], 1)
      | .ok params =>
        let result :=
          if method = "sceneByURL" then runURL params
          else if method = "sceneByFragment" then runFrag params
          else .error (.fatal ("Unknown scrape method \x27" ++ method ++ "\x27"))
        match result with
        | .ok j => (j, 0)
        | .error f => (failure_output f, 1)
  | _ => (.obj [("error", .str "Missing scrape method argument")], 1)

/-- Normalized whitespace: every whitespace character is a plain space and no
two spaces are adjacent. This is the shape `collapseRuns` produces and the
key to its idempotence. -/
def wsClean : List Char → Bool
  | [] => true
  | [c] => !pyWs c || c == ' '
  | c :: d :: rest =>
    (!pyWs c || c == ' ') && !(c == ' ' && d == ' ') && wsClean (d :: rest)

/-- The claim phrase about a trailing timestamp, formalized: the string ends
with a run of eight or more digits. -/
def spec_trailing_digit_run (s : String) : Bool :=
  decide (8 ≤ (s.toList.reverse.takeWhile Char.isDigit).length)

/-- The claim phrase about containing a file extension, formalized: the
string ends with a dot followed by at least one non-dot character. -/
def spec_has_extension (s : String) : Bool :=
  let r := s.toList.reverse
  let ext := r.takeWhile (· != '.')
  decide (ext.length < r.length) && !ext.isEmpty

/-- The raw values at the per-fingerprint duration location: entries of a
list value that are mappings carrying a `duration` key. -/
def spec_fingerprint_values : Option Json → List Json
  | some (.arr fps) =>
    fps.filterMap fun fp =>
      match fp with
      | .obj kvs => lookupKey "duration" kvs
      | _ => none
  | _ => []

/-- The raw values at the duration-bearing locations of a fragment, in the
order the code visits them: top-level `duration`, then `scene.duration` and
`scene.fingerprints[].duration` when `scene` is a mapping, else the top-level
`fingerprints[].duration`. -/
def spec_duration_values (params : Json) : List Json :=
  match params with
  | .obj _ =>
    (jget params "duration").toList ++
    (match jget params "scene" with
     | some (.obj skvs) =>
       (lookupKey "duration" skvs).toList ++
         spec_fingerprint_values (lookupKey "fingerprints" skvs)
     | _ => spec_fingerprint_values (jget params "fingerprints"))
  | _ => []

/-! ### Character-level lemmas about the query builder stages -/

theorem basenameL_no_slash (l : List Char) : '/' ∉ basenameL l := by
  intro h
  rw [basenameL, List.mem_reverse] at h
  have hp := List.mem_takeWhile_imp h
  simp at hp

theorem stripExtL_subset {x : Char} {l : List Char} (h : x ∈ stripExtL l) : x ∈ l := by
  simp only [stripExtL] at h
  split at h
  · exact List.mem_reverse.mp (List.mem_of_mem_drop (List.mem_reverse.mp h))
  · exact h

theorem afterSep_subset : ∀ {l r : List Char}, afterSep l = some r → ∀ {x : Char}, x ∈ r → x ∈ l := by
  intro l
  induction l with
  | nil => intro r h; simp [afterSep] at h
  | cons c rest ih =>
    intro r h x hx
    simp only [afterSep] at h
    split at h
    · cases h
      exact List.mem_cons_of_mem _ (List.mem_of_mem_drop hx)
    · exact List.mem_cons_of_mem _ (ih h hx)

theorem dropBeforeSepL_subset {x : Char} {l : List Char} (h : x ∈ dropBeforeSepL l) : x ∈ l := by
  rw [dropBeforeSepL] at h
  revert h
  cases he : afterSep l with
  | none => intro h; exact h
  | some r => intro h; exact afterSep_subset he h

theorem replCh_mem {x a b : Char} {l : List Char} (h : x ∈ replCh a b l) : x ∈ l ∨ x = b := by
  rw [replCh, List.mem_map] at h
  obtain ⟨c, hc, hx⟩ := h
  split at hx
  · right; exact hx.symm
  · left; exact hx ▸ hc

theorem replCh_self_not_mem {a b : Char} (hab : a ≠ b) (l : List Char) : a ∉ replCh a b l := by
  intro h
  rw [replCh, List.mem_map] at h
  obtain ⟨c, _, hx⟩ := h
  split at hx
  · exact hab hx.symm
  · rename_i hca
    exact hca hx

theorem replCh_eq_self {a b : Char} : ∀ {l : List Char}, a ∉ l → replCh a b l = l := by
  intro l
  induction l with
  | nil => intro _; rfl
  | cons c rest ih =>
    intro h
    have hc : ¬ c = a := by
      intro e
      exact h (by simp [e])
    have ht := ih fun hm => h (List.mem_cons_of_mem _ hm)
    simp only [replCh, List.map_cons] at *
    rw [if_neg hc, ht]

theorem truncAtDigitsL_subset {x : Char} {l : List Char} (h : x ∈ truncAtDigitsL l) : x ∈ l := by
  simp only [truncAtDigitsL] at h
  split at h
  · exact List.mem_of_mem_take h
  · split at h
    · exact List.mem_of_mem_take h
    · exact h

theorem collapseRuns_mem : ∀ {l : List Char} {x : Char}, x ∈ collapseRuns l → x ∈ l ∨ x = ' ' := by
  intro l
  induction l with
  | nil => intro x h; simp [collapseRuns] at h
  | cons c rest ih =>
    intro x h
    cases rest with
    | nil =>
      simp only [collapseRuns] at h
      split at h
      · simp at h; right; exact h
      · simp at h; left; simp [h]
    | cons d rest2 =>
      simp only [collapseRuns] at h
      split at h
      · rcases ih h with h1 | h1
        · left; exact List.mem_cons_of_mem _ h1
        · right; exact h1
      · rcases List.mem_cons.mp h with h1 | h1
        · split at h1
          · right; exact h1
          · left; simp [h1]
        · rcases ih h1 with h2 | h2
          · left; exact List.mem_cons_of_mem _ h2
          · right; exact h2

theorem dropTrailWs_subset : ∀ {l : List Char} {x : Char}, x ∈ dropTrailWs l → x ∈ l := by
  intro l
  induction l with
  | nil => intro x h; simp [dropTrailWs] at h
  | cons c rest ih =>
    intro x h
    simp only [dropTrailWs] at h
    split at h
    · simp at h
    · rcases List.mem_cons.mp h with h1 | h1
      · simp [h1]
      · exact List.mem_cons_of_mem _ (ih h1)

theorem stripWsL_subset {x : Char} {l : List Char} (h : x ∈ stripWsL l) : x ∈ l := by
  rw [stripWsL] at h
  exact (List.dropWhile_sublist _).mem (dropTrailWs_subset h)

theorem collapseWsL_mem {x : Char} {l : List Char} (h : x ∈ collapseWsL l) : x ∈ l ∨ x = ' ' := by
  rw [collapseWsL] at h
  exact collapseRuns_mem (stripWsL_subset h)

/-- The three separator characters can never survive into a built query:
slashes die with the basename, underscores and dashes are replaced. -/
theorem bsq_no_special (value : String) :
    '/' ∉ (build_search_query value).toList ∧ '_' ∉ (build_search_query value).toList ∧
      '-' ∉ (build_search_query value).toList := by
  by_cases hv : value = ""
  · subst hv; simp [build_search_query]
  · simp only [build_search_query, if_neg hv]
    refine ⟨?_, ?_, ?_⟩ <;> intro h
    · rcases collapseWsL_mem h with h1 | h1
      · have h2 := (replCh_mem (truncAtDigitsL_subset h1)).resolve_right (by decide)
        have h3 := (replCh_mem h2).resolve_right (by decide)
        exact basenameL_no_slash _ (stripExtL_subset (dropBeforeSepL_subset h3))
      · exact absurd h1 (by decide)
    · rcases collapseWsL_mem h with h1 | h1
      · rcases replCh_mem (truncAtDigitsL_subset h1) with h2 | h2
        · exact replCh_self_not_mem (by decide) _ h2
        · exact absurd h2 (by decide)
      · exact absurd h1 (by decide)
    · rcases collapseWsL_mem h with h1 | h1
      · exact replCh_self_not_mem (by decide) _ (truncAtDigitsL_subset h1)
      · exact absurd h1 (by decide)

/-! ### Idempotence of the whitespace cleanup -/

theorem pyWs_space : pyWs ' ' = true := by decide

theorem ne_space_of_not_ws {c : Char} (h : pyWs c = false) : ¬ c = ' ' := by
  intro e
  rw [e] at h
  simp [pyWs_space] at h

theorem wsClean_head {c : Char} {rest : List Char} (h : wsClean (c :: rest) = true) :
    (!pyWs c || c == ' ') = true := by
  cases rest with
  | nil => simpa [wsClean] using h
  | cons d r2 =>
    simp only [wsClean, Bool.and_eq_true] at h
    exact h.1.1

theorem wsClean_tail {c : Char} {rest : List Char} (h : wsClean (c :: rest) = true) :
    wsClean rest = true := by
  cases rest with
  | nil => rfl
  | cons d r2 =>
    simp only [wsClean, Bool.and_eq_true] at h
    simpa [wsClean, Bool.and_eq_true] using h.2

theorem wsClean_pair {c d : Char} {rest : List Char} (h : wsClean (c :: d :: rest) = true) :
    (!(c == ' ' && d == ' ')) = true := by
  simp only [wsClean, Bool.and_eq_true] at h
  exact h.1.2

theorem collapseRuns_head_not_ws {d : Char} (hd : pyWs d = false) (rest : List Char) :
    ∃ t, collapseRuns (d :: rest) = d :: t := by
  cases rest with
  | nil => exact ⟨[], by simp [collapseRuns, hd]⟩
  | cons e r2 => exact ⟨collapseRuns (e :: r2), by simp [collapseRuns, hd]⟩

theorem collapseRuns_head_ws : ∀ (rest : List Char) {d : Char}, pyWs d = true →
    ∃ t, collapseRuns (d :: rest) = ' ' :: t := by
  intro rest
  induction rest with
  | nil => intro d hd; exact ⟨[], by simp [collapseRuns, hd]⟩
  | cons e r2 ih =>
    intro d hd
    by_cases he : pyWs e = true
    · obtain ⟨t, ht⟩ := ih he
      exact ⟨t, by simp [collapseRuns, hd, he, ht]⟩
    · simp only [Bool.not_eq_true] at he
      exact ⟨collapseRuns (e :: r2), by simp [collapseRuns, hd, he]⟩

theorem collapseRuns_wsClean : ∀ l : List Char, wsClean (collapseRuns l) = true := by
  intro l
  induction l with
  | nil => rfl
  | cons c rest ih =>
    cases rest with
    | nil =>
      by_cases hc : pyWs c = true
      · simp [collapseRuns, hc, wsClean]
      · simp only [Bool.not_eq_true] at hc
        simp [collapseRuns, hc, wsClean]
    | cons d rest2 =>
      by_cases hc : pyWs c = true <;> by_cases hd : pyWs d = true
      · simpa [collapseRuns, hc, hd] using ih
      · simp only [Bool.not_eq_true] at hd
        obtain ⟨t, ht⟩ := collapseRuns_head_not_ws hd rest2
        rw [show collapseRuns (c :: d :: rest2) = ' ' :: collapseRuns (d :: rest2) by
          simp [collapseRuns, hc, hd], ht]
        have hd' := ne_space_of_not_ws hd
        rw [ht] at ih
        simp [wsClean, hd', ih]
      · simp only [Bool.not_eq_true] at hc
        obtain ⟨t, ht⟩ := collapseRuns_head_ws rest2 hd
        rw [show collapseRuns (c :: d :: rest2) = c :: collapseRuns (d :: rest2) by
          simp [collapseRuns, hc, hd], ht]
        have hc' := ne_space_of_not_ws hc
        rw [ht] at ih
        simp [wsClean, hc, hc', ih]
      · simp only [Bool.not_eq_true] at hc hd
        obtain ⟨t, ht⟩ := collapseRuns_head_not_ws hd rest2
        rw [show collapseRuns (c :: d :: rest2) = c :: collapseRuns (d :: rest2) by
          simp [collapseRuns, hc, hd], ht]
        have hc' := ne_space_of_not_ws hc
        rw [ht] at ih
        simp [wsClean, hc, hc', ih]

theorem collapseRuns_eq_self : ∀ {l : List Char}, wsClean l = true → collapseRuns l = l := by
  intro l
  induction l with
  | nil => intro _; rfl
  | cons c rest ih =>
    intro h
    cases rest with
    | nil =>
      by_cases hc : pyWs c = true
      · have := wsClean_head h
        simp [hc] at this
        simp [collapseRuns, hc, this]
      · simp only [Bool.not_eq_true] at hc
        simp [collapseRuns, hc]
    | cons d rest2 =>
      have ht := ih (wsClean_tail h)
      by_cases hc : pyWs c = true <;> by_cases hd : pyWs d = true
      · exfalso
        have hc' := wsClean_head h
        simp [hc] at hc'
        have hd' := wsClean_head (wsClean_tail h)
        simp [hd] at hd'
        have := wsClean_pair h
        simp [hc', hd'] at this
      · have hc' := wsClean_head h
        simp [hc] at hc'
        simp [collapseRuns, hc, hd, hc', ht]
      · simp only [Bool.not_eq_true] at hc
        simp [collapseRuns, hc, hd, ht]
      · simp only [Bool.not_eq_true] at hc
        simp [collapseRuns, hc, hd, ht]

theorem dropTrailWs_cons (c : Char) (rest : List Char) :
    dropTrailWs (c :: rest) =
      if dropTrailWs rest = [] ∧ pyWs c = true then [] else c :: dropTrailWs rest := rfl

theorem dropTrailWs_idem : ∀ l : List Char, dropTrailWs (dropTrailWs l) = dropTrailWs l
  | [] => rfl
  | c :: rest => by
    rw [dropTrailWs_cons]
    by_cases h : dropTrailWs rest = [] ∧ pyWs c = true
    · rw [if_pos h]; rfl
    · rw [if_neg h, dropTrailWs_cons, dropTrailWs_idem rest, if_neg h]

theorem dropWhile_head_not {p : Char → Bool} :
    ∀ {l : List Char} {c : Char} {t : List Char}, l.dropWhile p = c :: t → p c = false := by
  intro l
  induction l with
  | nil => intro c t h; simp at h
  | cons a rest ih =>
    intro c t h
    by_cases ha : p a = true
    · rw [List.dropWhile_cons, if_pos ha] at h
      exact ih h
    · simp only [Bool.not_eq_true] at ha
      rw [List.dropWhile_cons, if_neg (by simp [ha])] at h
      cases h
      exact ha

theorem dropTrailWs_shape (c : Char) (rest : List Char) :
    dropTrailWs (c :: rest) = [] ∨ ∃ t, dropTrailWs (c :: rest) = c :: t := by
  rw [dropTrailWs_cons]
  split
  · left; rfl
  · right; exact ⟨_, rfl⟩

theorem stripWsL_idem (l : List Char) : stripWsL (stripWsL l) = stripWsL l := by
  rw [stripWsL, stripWsL]
  have hdw : (dropTrailWs (List.dropWhile pyWs l)).dropWhile pyWs
      = dropTrailWs (List.dropWhile pyWs l) := by
    cases hd : List.dropWhile pyWs l with
    | nil => rfl
    | cons c t =>
      have hc := dropWhile_head_not hd
      rcases dropTrailWs_shape c t with h1 | ⟨t2, h2⟩
      · rw [h1]; rfl
      · rw [h2, List.dropWhile_cons, if_neg (by simp [hc])]
  rw [hdw, dropTrailWs_idem]

theorem wsClean_dropWhile {p : Char → Bool} :
    ∀ {l : List Char}, wsClean l = true → wsClean (l.dropWhile p) = true := by
  intro l
  induction l with
  | nil => intro _; rfl
  | cons c rest ih =>
    intro h
    rw [List.dropWhile_cons]
    split
    · exact ih (wsClean_tail h)
    · exact h

theorem wsClean_dropTrailWs : ∀ {l : List Char}, wsClean l = true →
    wsClean (dropTrailWs l) = true := by
  intro l
  induction l with
  | nil => intro _; rfl
  | cons c rest ih =>
    intro h
    have ht := ih (wsClean_tail h)
    rw [dropTrailWs_cons]
    split
    · rfl
    · cases hr : dropTrailWs rest with
      | nil => simpa [wsClean] using wsClean_head h
      | cons d t =>
        cases rest with
        | nil => simp [dropTrailWs] at hr
        | cons e r2 =>
          rcases dropTrailWs_shape e r2 with h1 | ⟨t2, h2⟩
          · rw [h1] at hr; cases hr
          · rw [h2] at hr
            cases hr
            rw [h2] at ht
            have hpair := wsClean_pair h
            have hhead := wsClean_head h
            simp only [wsClean, Bool.and_eq_true]
            exact ⟨⟨hhead, hpair⟩, by simpa [wsClean] using ht⟩

theorem wsClean_stripWsL {l : List Char} (h : wsClean l = true) :
    wsClean (stripWsL l) = true := by
  rw [stripWsL]
  exact wsClean_dropTrailWs (wsClean_dropWhile h)

theorem collapseWsL_idem (l : List Char) : collapseWsL (collapseWsL l) = collapseWsL l := by
  rw [collapseWsL, collapseWsL]
  rw [collapseRuns_eq_self (wsClean_stripWsL (collapseRuns_wsClean l))]
  exact stripWsL_idem _

/-- A built query is a fixed point of the whitespace cleanup. -/
theorem bsq_collapse_fix (value : String) :
    collapseWsL (build_search_query value).toList = (build_search_query value).toList := by
  by_cases hv : value = ""
  · subst hv; rfl
  · simp only [build_search_query, if_neg hv]
    exact collapseWsL_idem _

theorem afterSep_none : ∀ {l : List Char}, '_' ∉ l → afterSep l = none := by
  intro l
  induction l with
  | nil => intro _; rfl
  | cons c rest ih =>
    intro h
    have hc : ¬ c = '_' := fun e => h (by simp [e])
    simp only [afterSep]
    rw [if_neg (by simp [hc]), ih fun hm => h (List.mem_cons_of_mem _ hm)]

theorem dropBeforeSepL_eq_self {l : List Char} (h : '_' ∉ l) : dropBeforeSepL l = l := by
  rw [dropBeforeSepL, afterSep_none h]

theorem basenameL_eq_self {l : List Char} (h : '/' ∉ l) : basenameL l = l := by
  rw [basenameL, List.takeWhile_eq_self_iff.mpr, List.reverse_reverse]
  intro x hx
  have hxl : x ∈ l := List.mem_reverse.mp hx
  simp only [bne_iff_ne, ne_eq]
  intro e
  exact h (e ▸ hxl)

/-! ### Claims C5, C6 and C7: the filename pipeline -/

/-- C5: on the filename `tomtom10_-_Thicc_5_1766671291932_folhscuz.mp4` the
Token Extractor is claimed to return the combined timestamp and suffix tokens
`["1766671291932_folhscuz", "1766671291932", "folhscuz"]`. The leftmost match
of `(\d+)_([A-Za-z0-9]+)` however starts at the digit `5` of `Thicc_5`, so the
code returns `["5_1766671291932", "5", "1766671291932"]` — the variable names
`timestamp`/`suffix` and the spec show the claim is the intent and the code a
slip. This theorem evaluates the code at the failing input. -/
theorem claim_C5_token_extractor_actual :
    extract_filename_tokens "tomtom10_-_Thicc_5_1766671291932_folhscuz.mp4" =
      ["5_1766671291932", "5", "1766671291932"] ∧
    extract_filename_tokens "tomtom10_-_Thicc_5_1766671291932_folhscuz.mp4" ≠
      ["1766671291932_folhscuz", "1766671291932", "folhscuz"] := by
  refine ⟨rfl, ?_⟩
  intro h
  rw [show extract_filename_tokens "tomtom10_-_Thicc_5_1766671291932_folhscuz.mp4" =
    ["5_1766671291932", "5", "1766671291932"] from rfl] at h
  simp at h

/-- C6 counterexample: the cleaned query of `x.mp4.mp4` still ends with the
extension `.mp4`, and the cleaned query of `a12345678` ends with a run of
eight digits (no word boundary precedes the run, so the truncation regexes
do not fire). Both invariant clauses of the claim are therefore false. -/
theorem claim_C6_counterexample :
    build_search_query "x.mp4.mp4" = "x.mp4" ∧
    spec_has_extension (build_search_query "x.mp4.mp4") = true ∧
    build_search_query "a12345678" = "a12345678" ∧
    spec_trailing_digit_run (build_search_query "a12345678") = true :=
  ⟨rfl, rfl, rfl, rfl⟩

/-- C6 (amended): of the three claimed invariants of the Query Builder only
the path-separator clause holds — for every input string the query contains
no slash. The extension clause fails on double extensions and the trailing
digit clause fails on digit runs glued to word characters (see the
counterexample). -/
theorem claim_C6_no_path_separator (value : String) :
    '/' ∉ (build_search_query value).toList :=
  (bsq_no_special value).1

/-- C7 counterexample: the Query Builder is not idempotent on its own output
even barring new digit runs. On `x.mp4.mp4` the first run yields `x.mp4`;
the digit truncation is a fixed point there (no eight-digit run), yet a
second run strips `.mp4` again and yields `x`. -/
theorem claim_C7_counterexample :
    build_search_query "x.mp4.mp4" = "x.mp4" ∧
    truncAtDigitsL (String.toList "x.mp4") = String.toList "x.mp4" ∧
    build_search_query "x.mp4" = "x" ∧
    ("x.mp4" : String) ≠ "x" :=
  ⟨rfl, rfl, rfl, by decide⟩

/-- C7 (amended): the Query Builder is idempotent on its own output barring a
new digit-run truncation or a further extension strip: whenever the extension
strip and the digit truncation are fixed points on the cleaned result, a
second run returns it unchanged. The remaining stages (basename, separator
drop, character replacement, whitespace cleanup) never change a built query,
because it contains no slash, no underscore, no dash, and is already
whitespace-normalized. -/
theorem claim_C7_idempotent_modulo_recognized_stages (value : String)
    (hext : stripExtL (build_search_query value).toList = (build_search_query value).toList)
    (hdig : truncAtDigitsL (build_search_query value).toList = (build_search_query value).toList) :
    build_search_query (build_search_query value) = build_search_query value := by
  obtain ⟨hs, hu, hd⟩ := bsq_no_special value
  have hfix := bsq_collapse_fix value
  by_cases hq0 : build_search_query value = ""
  · rw [hq0]; rfl
  · conv_lhs => rw [build_search_query]
    rw [if_neg hq0]
    show String.mk (collapseWsL (truncAtDigitsL (replCh '-' ' ' (replCh '_' ' '
      (dropBeforeSepL (stripExtL (basenameL (build_search_query value).toList))))))) =
      build_search_query value
    rw [basenameL_eq_self hs, hext, dropBeforeSepL_eq_self hu,
        replCh_eq_self hu, replCh_eq_self hd, hdig, hfix]
    rfl

/-- C7 witness: the amended idempotence applied to the Type-B example
filename, whose cleaned query is `Thicc 5`. -/
theorem claim_C7_witness :
    stripExtL (build_search_query "tomtom10_-_Thicc_5_1766671291932_folhscuz.mp4").toList =
      (build_search_query "tomtom10_-_Thicc_5_1766671291932_folhscuz.mp4").toList ∧
    truncAtDigitsL (build_search_query "tomtom10_-_Thicc_5_1766671291932_folhscuz.mp4").toList =
      (build_search_query "tomtom10_-_Thicc_5_1766671291932_folhscuz.mp4").toList ∧
    build_search_query (build_search_query "tomtom10_-_Thicc_5_1766671291932_folhscuz.mp4") =
      build_search_query "tomtom10_-_Thicc_5_1766671291932_folhscuz.mp4" :=
  ⟨rfl, rfl,
    claim_C7_idempotent_modulo_recognized_stages
      "tomtom10_-_Thicc_5_1766671291932_folhscuz.mp4" rfl rfl⟩

/-! ### Claim C8: the Duration Extractor -/

theorem toList_filterMap_coerce (o : Option Json) :
    o.toList.filterMap coerce_duration = (o.bind coerce_duration).toList := by
  cases o with
  | none => rfl
  | some v =>
    cases hc : coerce_duration v <;>
      simp [Option.toList, List.filterMap_cons, hc]

theorem fingerprints_part (o : Option Json) :
    fingerprintDurations o = (spec_fingerprint_values o).filterMap coerce_duration := by
  cases o with
  | none => rfl
  | some v =>
    cases v with
    | arr fps =>
      simp only [fingerprintDurations, spec_fingerprint_values]
      rw [List.filterMap_filterMap]
      congr 1
      funext fp
      cases fp <;> rfl
    | null => rfl
    | bool b => rfl
    | num q => rfl
    | str s => rfl
    | obj kvs => rfl

theorem extract_local_durations_eq (params : Json) :
    extract_local_durations params = (spec_duration_values params).filterMap coerce_duration := by
  cases params with
  | obj kvs =>
    cases hs : jget (Json.obj kvs) "scene" with
    | none =>
      simp only [extract_local_durations, spec_duration_values, hs]
      rw [List.filterMap_append, toList_filterMap_coerce, fingerprints_part]
    | some sv =>
      cases sv with
      | obj skvs =>
        simp only [extract_local_durations, spec_duration_values, hs]
        rw [List.filterMap_append, List.filterMap_append, toList_filterMap_coerce,
          toList_filterMap_coerce, fingerprints_part, List.append_assoc]
        rfl
      | null =>
        simp only [extract_local_durations, spec_duration_values, hs]
        rw [List.filterMap_append, toList_filterMap_coerce, fingerprints_part]
      | bool b =>
        simp only [extract_local_durations, spec_duration_values, hs]
        rw [List.filterMap_append, toList_filterMap_coerce, fingerprints_part]
      | num q =>
        simp only [extract_local_durations, spec_duration_values, hs]
        rw [List.filterMap_append, toList_filterMap_coerce, fingerprints_part]
      | str s =>
        simp only [extract_local_durations, spec_duration_values, hs]
        rw [List.filterMap_append, toList_filterMap_coerce, fingerprints_part]
      | arr xs =>
        simp only [extract_local_durations, spec_duration_values, hs]
        rw [List.filterMap_append, toList_filterMap_coerce, fingerprints_part]
  | null => rfl
  | bool b => rfl
  | num q => rfl
  | str s => rfl
  | arr xs => rfl

/-- C8 counterexample: the extractor does not deduplicate. With the same
duration 100 at the top level and under `scene`, the returned list holds the
value twice, so the claimed "no value appears twice" is false. -/
theorem claim_C8_counterexample :
    extract_local_durations
        (Json.obj [("duration", Json.num 100), ("scene", Json.obj [("duration", Json.num 100)])]) =
      [100, 100] ∧
    ¬ (extract_local_durations
        (Json.obj [("duration", Json.num 100),
          ("scene", Json.obj [("duration", Json.num 100)])])).Nodup := by
  refine ⟨rfl, ?_⟩
  rw [show extract_local_durations
      (Json.obj [("duration", Json.num 100), ("scene", Json.obj [("duration", Json.num 100)])]) =
      [100, 100] from rfl]
  decide

/-- C8 (amended): the Duration Extractor collects exactly the
numeric-coercible values at the known fragment locations (top-level
`duration`, then `scene.duration` and `scene.fingerprints[].duration` when
`scene` is a mapping, else top-level `fingerprints[].duration`), silently
ignoring non-numeric values, and returns them in collection order — possibly
with duplicates and possibly empty. Formally, the extractor is the
numeric-coercion filter applied to the raw values at those locations, and a
duration is returned iff some location holds a value that coerces to it. -/
theorem claim_C8_collects_coercible_values (params : Json) :
    extract_local_durations params = (spec_duration_values params).filterMap coerce_duration ∧
    ∀ d : ℚ, d ∈ extract_local_durations params ↔
      ∃ v ∈ spec_duration_values params, coerce_duration v = some d := by
  refine ⟨extract_local_durations_eq params, fun d => ?_⟩
  rw [extract_local_durations_eq params]
  exact List.mem_filterMap

/-- C8 witness: the characterization applied to a concrete fragment with a
numeric-string duration. -/
theorem claim_C8_witness :
    (25 : ℚ) ∈ extract_local_durations (Json.obj [("duration", Json.str "25.0")]) :=
  ((claim_C8_collects_coercible_values (Json.obj [("duration", Json.str "25.0")])).2 25).mpr
    ⟨Json.str "25.0", List.mem_singleton.mpr rfl, by with_unfolding_all rfl⟩

/-! ### Claim C9: score bounds -/

/-- C9: whenever `_calculate_score` returns a score, the score is 100 times a
similarity ratio in [0,1] plus a duration bonus of exactly 0 or 50, so it
lies in the closed interval [0, 150] and is never negative. The hypothesis on
`sim` is the documented range of the difflib SequenceMatcher ratio. -/
theorem claim_C9_score_bounds (sim : String → String → ℚ) (video : Json)
    (query_title : String) (local_durations : List ℚ) (score : ℚ)
    (hsim : ∀ a b, 0 ≤ sim a b ∧ sim a b ≤ 1)
    (h : calculate_score sim video query_title local_durations = some score) :
    0 ≤ score ∧ score ≤ 150 ∧
      ∃ r bonus : ℚ, 0 ≤ r ∧ r ≤ 1 ∧ (bonus = 0 ∨ bonus = 50) ∧ score = r * 100 + bonus := by
  simp only [calculate_score] at h
  by_cases hc : query_title ≠ "" ∧ ((jget video "title").getD (Json.str "")).truthy = true
  · rw [if_pos hc] at h
    cases ht : (jget video "title").getD (Json.str "") with
    | str s =>
      rw [ht] at h
      obtain ⟨hr0, hr1⟩ := hsim query_title.toLower s.toLower
      set r := sim query_title.toLower s.toLower with hr
      by_cases hb : local_durations ≠ [] ∧
          duration_matches (extract_candidate_duration video) local_durations = true
      · rw [if_pos hb] at h
        simp only [Option.map_some', Option.some.injEq] at h
        refine ⟨?_, ?_, r, 50, hr0, hr1, Or.inr rfl, h.symm⟩ <;> nlinarith
      · rw [if_neg hb] at h
        simp only [Option.map_some', Option.some.injEq] at h
        refine ⟨?_, ?_, r, 0, hr0, hr1, Or.inl rfl, h.symm⟩ <;> nlinarith
    | null => rw [ht] at h; simp at h
    | bool b => rw [ht] at h; simp at h
    | num q => rw [ht] at h; simp at h
    | arr xs => rw [ht] at h; simp at h
    | obj kvs => rw [ht] at h; simp at h
  · rw [if_neg hc] at h
    by_cases hb : local_durations ≠ [] ∧
        duration_matches (extract_candidate_duration video) local_durations = true
    · rw [if_pos hb] at h
      simp only [Option.map_some', Option.some.injEq] at h
      refine ⟨?_, ?_, 0, 50, le_refl 0, by norm_num, Or.inr rfl, by rw [← h]; ring⟩ <;>
        rw [← h] <;> norm_num
    · rw [if_neg hb] at h
      simp only [Option.map_some', Option.some.injEq] at h
      refine ⟨?_, ?_, 0, 0, le_refl 0, by norm_num, Or.inl rfl, by rw [← h]; ring⟩ <;>
        rw [← h] <;> norm_num

/-- C9 witness: the bounds at a concrete candidate whose title scores a
similarity of one half and whose duration earns no bonus. -/
theorem claim_C9_witness :
    0 ≤ (50 : ℚ) ∧ (50 : ℚ) ≤ 150 ∧
      ∃ r bonus : ℚ, 0 ≤ r ∧ r ≤ 1 ∧ (bonus = 0 ∨ bonus = 50) ∧ (50 : ℚ) = r * 100 + bonus :=
  claim_C9_score_bounds (fun _ _ => 1/2) (Json.obj [("title", Json.str "t")]) "t" [] 50
    (fun _ _ => by norm_num) (by with_unfolding_all rfl)

/-! ### Claim C10: scene shape -/

theorem lookupKey_append (k : String) (l1 l2 : List (String × Json)) :
    lookupKey k (l1 ++ l2) = (lookupKey k l1 <|> lookupKey k l2) := by
  induction l1 with
  | nil => rfl
  | cons a rest ih =>
    simp only [List.cons_append, lookupKey]
    split
    · rfl
    · exact ih

/-- C10: every ResolvedScene built by `_build_scene` carries the keys title,
url, image, date, performers and tags, even for records missing the
corresponding fields, and when a record has neither an `uploadDate` nor an
`isoDate` key the date value is the empty string. -/
theorem claim_C10_scene_keys (video scene : Json) (h : build_scene video = some scene) :
    (jhasKey scene "title" = true ∧ jhasKey scene "url" = true ∧
     jhasKey scene "image" = true ∧ jhasKey scene "date" = true ∧
     jhasKey scene "performers" = true ∧ jhasKey scene "tags" = true) ∧
    (jget video "uploadDate" = none → jget video "isoDate" = none →
      jget scene "date" = some (Json.str "")) := by
  simp only [build_scene] at h
  cases ht : orElseJson (jget video "title") (Json.str "") with
  | str title =>
    simp only [ht] at h
    cases hpi : pick_image video with
    | none => simp only [hpi] at h; exact Option.noConfusion h
    | some image =>
      simp only [hpi] at h
      cases hft : firstTruthy [jget video "uploadDate", jget video "isoDate"] with
      | none =>
        simp only [hft] at h
        injection h with h2
        subst h2
        refine ⟨⟨?_, ?_, ?_, ?_, ?_, ?_⟩, fun _ _ => ?_⟩ <;>
          simp [jhasKey, jget, List.any_append, lookupKey_append, lookupKey]
      | some ftv =>
        cases ftv with
        | str d =>
          simp only [hft] at h
          injection h with h2
          subst h2
          refine ⟨⟨?_, ?_, ?_, ?_, ?_, ?_⟩, fun hu hi => ?_⟩
          · simp [jhasKey, List.any_append]
          · simp [jhasKey, List.any_append]
          · simp [jhasKey, List.any_append]
          · simp [jhasKey, List.any_append]
          · simp [jhasKey, List.any_append]
          · simp [jhasKey, List.any_append]
          · rw [hu, hi] at hft
            simp [firstTruthy] at hft
        | null => simp only [hft] at h; exact Option.noConfusion h
        | bool b => simp only [hft] at h; exact Option.noConfusion h
        | num q => simp only [hft] at h; exact Option.noConfusion h
        | arr xs => simp only [hft] at h; exact Option.noConfusion h
        | obj kvs => simp only [hft] at h; exact Option.noConfusion h
  | null => simp only [ht] at h; exact Option.noConfusion h
  | bool b => simp only [ht] at h; exact Option.noConfusion h
  | num q => simp only [ht] at h; exact Option.noConfusion h
  | arr xs => simp only [ht] at h; exact Option.noConfusion h
  | obj kvs => simp only [ht] at h; exact Option.noConfusion h

/-- C10 witness: the scene built from the empty record has all six keys and
an empty date. -/
theorem claim_C10_witness :
    jhasKey (Json.obj [("title", Json.str ""),
      ("url", Json.str "https://pmvhaven.com/video/"), ("image", Json.str ""),
      ("date", Json.str ""), ("performers", Json.arr []), ("tags", Json.arr [])]) "date" = true ∧
    jget (Json.obj [("title", Json.str ""),
      ("url", Json.str "https://pmvhaven.com/video/"), ("image", Json.str ""),
      ("date", Json.str ""), ("performers", Json.arr []), ("tags", Json.arr [])]) "date" =
      some (Json.str "") :=
  have h := claim_C10_scene_keys (Json.obj [])
    (Json.obj [("title", Json.str ""),
      ("url", Json.str "https://pmvhaven.com/video/"), ("image", Json.str ""),
      ("date", Json.str ""), ("performers", Json.arr []), ("tags", Json.arr [])]) rfl
  ⟨h.1.2.2.2.1, h.2 rfl rfl⟩

/-! ### Lemmas about scoring, sorting and the selection shortlist -/

theorem insertDesc_mem {x y : ℚ × Json} :
    ∀ {l : List (ℚ × Json)}, x ∈ insertDesc y l → x = y ∨ x ∈ l := by
  intro l
  induction l with
  | nil =>
    intro h
    simp only [insertDesc] at h
    left
    simp at h
    exact h
  | cons z rest ih =>
    intro h
    simp only [insertDesc] at h
    split at h
    · rcases List.mem_cons.mp h with h1 | h1
      · left; exact h1
      · right; exact h1
    · rcases List.mem_cons.mp h with h1 | h1
      · right; simp [h1]
      · rcases ih h1 with h2 | h2
        · left; exact h2
        · right; exact List.mem_cons_of_mem _ h2

theorem sortScoredDesc_mem {x : ℚ × Json} :
    ∀ {l : List (ℚ × Json)}, x ∈ sortScoredDesc l → x ∈ l := by
  intro l
  induction l with
  | nil => intro h; simpa [sortScoredDesc] using h
  | cons y rest ih =>
    intro h
    simp only [sortScoredDesc] at h
    rcases insertDesc_mem h with h1 | h1
    · simp [h1]
    · exact List.mem_cons_of_mem _ (ih h1)

theorem insertDesc_length (y : ℚ × Json) : ∀ l, (insertDesc y l).length = l.length + 1
  | [] => rfl
  | z :: rest => by
    simp only [insertDesc]
    split
    · simp
    · simp [insertDesc_length y rest]

theorem sortScoredDesc_length : ∀ l : List (ℚ × Json), (sortScoredDesc l).length = l.length
  | [] => rfl
  | y :: rest => by
    simp only [sortScoredDesc]
    rw [insertDesc_length, sortScoredDesc_length rest]
    rfl

theorem scored_candidates_of_mem (sim : String → String → ℚ) (qt : String) (lds : List ℚ) :
    ∀ {details : List Json} {sl : List (ℚ × Json)},
      scored_candidates_of sim qt lds details = some sl →
      ∀ {p : ℚ × Json}, p ∈ sl → p.2 ∈ details := by
  intro details
  induction details with
  | nil =>
    intro sl h p hp
    simp only [scored_candidates_of, Option.some.injEq] at h
    subst h
    simp at hp
  | cons v rest ih =>
    intro sl h p hp
    simp only [scored_candidates_of] at h
    revert h
    cases hc : calculate_score sim v qt lds with
    | none => intro h; exact Option.noConfusion h
    | some s =>
      cases hr : scored_candidates_of sim qt lds rest with
      | none => intro h; simp at h
      | some l2 =>
        intro h
        simp only [Option.map_some', Option.some.injEq] at h
        subst h
        rcases List.mem_cons.mp hp with h1 | h1
        · simp [h1]
        · exact List.mem_cons_of_mem _ (ih hr h1)

theorem scored_candidates_of_length (sim : String → String → ℚ) (qt : String) (lds : List ℚ) :
    ∀ {details : List Json} {sl : List (ℚ × Json)},
      scored_candidates_of sim qt lds details = some sl → sl.length = details.length := by
  intro details
  induction details with
  | nil =>
    intro sl h
    simp only [scored_candidates_of, Option.some.injEq] at h
    subst h
    rfl
  | cons v rest ih =>
    intro sl h
    simp only [scored_candidates_of] at h
    revert h
    cases hc : calculate_score sim v qt lds with
    | none => intro h; exact Option.noConfusion h
    | some s =>
      cases hr : scored_candidates_of sim qt lds rest with
      | none => intro h; simp at h
      | some l2 =>
        intro h
        simp only [Option.map_some', Option.some.injEq] at h
        subst h
        simp [ih hr]

theorem sel_entries_length : ∀ {l : List Json} {opts : List Json},
    sel_entries l = some opts → opts.length ≤ l.length := by
  intro l
  induction l with
  | nil =>
    intro opts h
    simp only [sel_entries, Option.some.injEq] at h
    subst h
    simp
  | cons item rest ih =>
    intro opts h
    cases item with
    | obj kvs =>
      simp only [sel_entries] at h
      revert h
      cases he : sel_entry (Json.obj kvs) with
      | none => intro h; exact Option.noConfusion h
      | some e =>
        cases hr : sel_entries rest with
        | none => intro h; simp at h
        | some l2 =>
          intro h
          simp only [Option.map_some', Option.some.injEq] at h
          subst h
          simpa using Nat.succ_le_succ (ih hr)
    | null =>
      simp only [sel_entries] at h
      exact Nat.le_succ_of_le (ih h)
    | bool b =>
      simp only [sel_entries] at h
      exact Nat.le_succ_of_le (ih h)
    | num q =>
      simp only [sel_entries] at h
      exact Nat.le_succ_of_le (ih h)
    | str s =>
      simp only [sel_entries] at h
      exact Nat.le_succ_of_le (ih h)
    | arr xs =>
      simp only [sel_entries] at h
      exact Nat.le_succ_of_le (ih h)

/-! ### Claims C1 and C2: the decision policy of the Filter and Scorer -/

/-- C1: with local durations known, when the highest-scored candidate fails
the 10-second duration check and the ranked list contains a passing
candidate, `_handle_search_results` returns the scene built from the first
passing candidate in rank order (the `find?` hypothesis), not the
highest-scored one — which the extra conclusion records by showing the
returned candidate passes the check the top candidate failed. -/
theorem claim_C1_duration_gate_overrides_score
    (fetch : Json → Except Failure (Option Json)) (sim : String → String → ℚ)
    (candidates : List Json) (tokens : List String) (local_durations : List ℚ)
    (details : List Json) (s0 sc : ℚ) (v0 v : Json) (rest : List (ℚ × Json)) (scene : Json)
    (h1 : local_durations ≠ [])
    (h2 : fetch_details_loop (try_fetch fetch) (candidates_to_process candidates tokens) =
      .ok details)
    (h3 : rankedOf sim details (query_title_of tokens) local_durations = some ((s0, v0) :: rest))
    (h4 : duration_matches (extract_candidate_duration v0) local_durations = false)
    (h5 : ((s0, v0) :: rest).find?
        (fun sv => duration_matches (extract_candidate_duration sv.2) local_durations) =
      some (sc, v))
    (h6 : build_scene v = some scene) :
    handle_search_results fetch sim candidates tokens local_durations = .ok scene ∧
      duration_matches (extract_candidate_duration v) local_durations = true := by
  constructor
  · have hdet : ¬ details.isEmpty = true := by
      intro he
      rw [List.isEmpty_iff] at he
      subst he
      simp [rankedOf, scored_candidates_of, sortScoredDesc] at h3
    simp only [handle_search_results, h2]
    rw [if_neg hdet]
    simp only [h3]
    rw [if_pos ⟨h1, h4⟩]
    simp only [h5, scene_or_exn, h6]
  · simpa using List.find?_some h5

/-- C1 witness: two fetched candidates where the better-scoring title fails
the duration check and the lower-scoring one passes; the resolved scene is
built from the passing candidate. -/
theorem claim_C1_witness :
    handle_search_results (fun c => .ok (some c)) (fun _ b => if b = "x" then 1 else 0)
        [Json.obj [("title", Json.str "x"), ("duration", Json.num 999)],
         Json.obj [("title", Json.str "y"), ("duration", Json.num 100), ("_id", Json.str "b1")]]
        ["t"] [100] =
      .ok (Json.obj [("title", Json.str "y"),
        ("url", Json.str "https://pmvhaven.com/video/y_b1"), ("image", Json.str ""),
        ("date", Json.str ""), ("performers", Json.arr []), ("tags", Json.arr [])]) ∧
    duration_matches (extract_candidate_duration (Json.obj [("title", Json.str "y"),
      ("duration", Json.num 100), ("_id", Json.str "b1")])) [100] = true :=
  claim_C1_duration_gate_overrides_score
    (fun c => .ok (some c)) (fun _ b => if b = "x" then 1 else 0)
    [Json.obj [("title", Json.str "x"), ("duration", Json.num 999)],
     Json.obj [("title", Json.str "y"), ("duration", Json.num 100), ("_id", Json.str "b1")]]
    ["t"] [100]
    [Json.obj [("title", Json.str "x"), ("duration", Json.num 999)],
     Json.obj [("title", Json.str "y"), ("duration", Json.num 100), ("_id", Json.str "b1")]]
    100 50 (Json.obj [("title", Json.str "x"), ("duration", Json.num 999)])
    (Json.obj [("title", Json.str "y"), ("duration", Json.num 100), ("_id", Json.str "b1")])
    [(50, Json.obj [("title", Json.str "y"), ("duration", Json.num 100), ("_id", Json.str "b1")])]
    (Json.obj [("title", Json.str "y"),
      ("url", Json.str "https://pmvhaven.com/video/y_b1"), ("image", Json.str ""),
      ("date", Json.str ""), ("performers", Json.arr []), ("tags", Json.arr [])])
    (List.cons_ne_nil _ _) (by with_unfolding_all rfl) (by with_unfolding_all rfl)
    (by with_unfolding_all rfl) (by with_unfolding_all rfl) (by with_unfolding_all rfl)

/-- C2 counterexample: with local durations known but zero candidates
surviving the detail fetch, the claim as stated still applies (no
successfully fetched candidate is within tolerance, vacuously), yet the
pipeline aborts with a fatal error instead of returning a SelectionOptions
object. -/
theorem claim_C2_counterexample :
    handle_search_results (fun _ => .ok none) (fun _ _ => 0) [Json.obj []] [] [100] =
      .error (.fatal "No valid video details found from search results") := by
  with_unfolding_all rfl

/-- C2 (amended): with local durations known, at least one candidate
successfully detail-fetched, and no fetched candidate within 10 seconds of
any local duration, `_handle_search_results` returns the SelectionOptions
object built from the top three scored candidates — an object holding only a
`results` list of at most three entries, never a ResolvedScene. When no
candidate at all survives the detail fetch the pipeline instead fails
fatally (see the counterexample). -/
theorem claim_C2_shortlist_when_no_duration_match
    (fetch : Json → Except Failure (Option Json)) (sim : String → String → ℚ)
    (candidates : List Json) (tokens : List String) (local_durations : List ℚ)
    (details : List Json) (ranked : List (ℚ × Json)) (sel : Json)
    (h1 : local_durations ≠ [])
    (h2 : fetch_details_loop (try_fetch fetch) (candidates_to_process candidates tokens) =
      .ok details)
    (hne : details ≠ [])
    (h3 : rankedOf sim details (query_title_of tokens) local_durations = some ranked)
    (hnone : ∀ u ∈ details,
      duration_matches (extract_candidate_duration u) local_durations = false)
    (hsel : build_selection_options (((sortScoredDesc ranked).take 3).map (fun sv => sv.2)) =
      some sel) :
    handle_search_results fetch sim candidates tokens local_durations = .ok sel ∧
      ∃ opts : List Json, sel = Json.obj [("results", Json.arr opts)] ∧ opts.length ≤ 3 := by
  have h3b := h3
  simp only [rankedOf, Option.map_eq_some'] at h3b
  obtain ⟨sl, hsl, hsort⟩ := h3b
  have hmemD : ∀ p ∈ ranked,
      duration_matches (extract_candidate_duration p.2) local_durations = false := by
    intro p hp
    rw [← hsort] at hp
    exact hnone _ (scored_candidates_of_mem sim _ _ hsl (sortScoredDesc_mem hp))
  have hlen : ranked.length = details.length := by
    rw [← hsort, sortScoredDesc_length, scored_candidates_of_length sim _ _ hsl]
  constructor
  · cases ranked with
    | nil =>
      exfalso
      cases details with
      | nil => exact hne rfl
      | cons d ds => simp at hlen
    | cons hd tl =>
      obtain ⟨s0, u0⟩ := hd
      simp only [handle_search_results, h2]
      rw [if_neg (by rw [List.isEmpty_iff]; exact hne)]
      simp only [h3]
      rw [if_pos ⟨h1, hmemD _ (List.mem_cons_self _ _)⟩]
      rw [List.find?_eq_none.mpr (by
        intro x hx
        rw [hmemD x hx]
        simp)]
      simp only [options_or_exn, hsel]
  · simp only [build_selection_options, Option.map_eq_some'] at hsel
    obtain ⟨opts, hopts, hform⟩ := hsel
    refine ⟨opts, hform.symm, ?_⟩
    have h1l := sel_entries_length hopts
    have h2l : (((sortScoredDesc ranked).take 3).map (fun sv => sv.2)).length ≤ 3 := by
      rw [List.length_map]
      exact List.length_take_le 3 _
    omega

/-- C2 witness: one fetched candidate whose duration 500 cannot match the
local duration 100; the result is the one-entry shortlist object. -/
theorem claim_C2_witness :
    handle_search_results (fun c => .ok (some c)) (fun _ _ => 0)
        [Json.obj [("title", Json.str "y"), ("duration", Json.num 500)]] [] [100] =
      .ok (Json.obj [("results", Json.arr [Json.obj [("title", Json.str "y"),
        ("id", Json.str ""), ("url", Json.str ""), ("thumbnail", Json.str "")]])]) ∧
    ∃ opts : List Json,
      Json.obj [("results", Json.arr [Json.obj [("title", Json.str "y"),
        ("id", Json.str ""), ("url", Json.str ""), ("thumbnail", Json.str "")]])] =
        Json.obj [("results", Json.arr opts)] ∧ opts.length ≤ 3 :=
  claim_C2_shortlist_when_no_duration_match
    (fun c => .ok (some c)) (fun _ _ => 0)
    [Json.obj [("title", Json.str "y"), ("duration", Json.num 500)]] [] [100]
    [Json.obj [("title", Json.str "y"), ("duration", Json.num 500)]]
    [(0, Json.obj [("title", Json.str "y"), ("duration", Json.num 500)])]
    (Json.obj [("results", Json.arr [Json.obj [("title", Json.str "y"),
      ("id", Json.str ""), ("url", Json.str ""), ("thumbnail", Json.str "")]])])
    (List.cons_ne_nil _ _) (by with_unfolding_all rfl) (List.cons_ne_nil _ _)
    (by with_unfolding_all rfl)
    (by
      intro u hu
      rw [List.mem_singleton.mp hu]
      with_unfolding_all rfl)
    (by with_unfolding_all rfl)

/-! ### Claim C3: the search retry loop -/

/-- C3: the retry loop issues at most three search calls, all with the
identical query — the outcome only depends on the responses to the first
three attempts at that query (first conjunct); two empty responses followed
by a non-empty one resolve through `_handle_search_results` on the third
response (second conjunct); three empty responses produce the fatal
no-search-results error naming the query (third conjunct). -/
theorem claim_C3_retry_loop (fetch : Json → Except Failure (Option Json))
    (sim : String → String → ℚ) (searchF : String → Nat → Json) (query : String)
    (tokens : List String) (local_durations : List ℚ) :
    (∀ searchG : String → Nat → Json, searchG query 0 = searchF query 0 →
      searchG query 1 = searchF query 1 → searchG query 2 = searchF query 2 →
      search_videos_with_retries fetch sim searchG query tokens local_durations =
        search_videos_with_retries fetch sim searchF query tokens local_durations) ∧
    (∀ cs : List Json,
      py_in "error" (searchF query 0) = .ok false →
      extract_video_candidates (searchF query 0) = .ok [] →
      py_in "error" (searchF query 1) = .ok false →
      extract_video_candidates (searchF query 1) = .ok [] →
      py_in "error" (searchF query 2) = .ok false →
      extract_video_candidates (searchF query 2) = .ok cs →
      cs ≠ [] →
      search_videos_with_retries fetch sim searchF query tokens local_durations =
        handle_search_results fetch sim cs tokens local_durations) ∧
    ((∀ i, i < 3 → py_in "error" (searchF query i) = .ok false ∧
        extract_video_candidates (searchF query i) = .ok []) →
      search_videos_with_retries fetch sim searchF query tokens local_durations =
        .error (.fatal ("No search results for query \x27" ++ query ++ "\x27 after retries"))) := by
  refine ⟨?_, ?_, ?_⟩
  · intro searchG e0 e1 e2
    simp only [search_videos_with_retries, e0, e1, e2]
  · intro cs he0 hx0 he1 hx1 he2 hx2 hcs
    simp only [search_videos_with_retries, search_attempt_step, he0, hx0, he1, hx1, he2, hx2,
      List.isEmpty_nil, if_true]
    rw [if_neg (by rw [List.isEmpty_iff]; exact hcs)]
  · intro hall
    obtain ⟨he0, hx0⟩ := hall 0 (by norm_num)
    obtain ⟨he1, hx1⟩ := hall 1 (by norm_num)
    obtain ⟨he2, hx2⟩ := hall 2 (by norm_num)
    simp only [search_videos_with_retries, search_attempt_step, he0, hx0, he1, hx1, he2, hx2,
      List.isEmpty_nil, if_true]

/-- C3 witness: a search that is empty on the first two attempts and returns
one candidate on the third hands that candidate list to the scorer, and a
search that is empty on all three attempts fails with the error naming the
query. -/
theorem claim_C3_witness :
    search_videos_with_retries (fun _ => .ok none) (fun _ _ => 0)
        (fun _ i => if i = 2 then Json.obj [("videos", Json.arr [Json.obj []])] else Json.obj [])
        "q" [] [] =
      handle_search_results (fun _ => .ok none) (fun _ _ => 0) [Json.obj []] [] [] ∧
    search_videos_with_retries (fun _ => .ok none) (fun _ _ => 0) (fun _ _ => Json.obj [])
        "q" [] [] =
      .error (.fatal ("No search results for query \x27" ++ "q" ++ "\x27 after retries")) :=
  ⟨(claim_C3_retry_loop (fun _ => .ok none) (fun _ _ => 0)
      (fun _ i => if i = 2 then Json.obj [("videos", Json.arr [Json.obj []])] else Json.obj [])
      "q" [] []).2.1 [Json.obj []] rfl rfl rfl rfl rfl rfl (List.cons_ne_nil _ _),
   (claim_C3_retry_loop (fun _ => .ok none) (fun _ _ => 0) (fun _ _ => Json.obj [])
      "q" [] []).2.2 (fun i _ => ⟨rfl, rfl⟩)⟩

/-! ### Claim C4: the entry dispatcher and the failure contract -/

/-- Every exit of the dispatcher is 0 or 1, and an exit of 1 always comes
with a bare error object on stdout. -/
theorem main_dispatch_cases (runURL runFrag : Json → Except Failure Json)
    (argv : List String) (stdin : String) (decode : String → Except String Json) :
    ∀ out code, main_dispatch runURL runFrag argv stdin decode = (out, code) →
      code = 0 ∨ (code = 1 ∧ ∃ m, out = Json.obj [("error", Json.str m)]) := by
  intro out code h
  rcases argv with _ | ⟨p, _ | ⟨method, rest⟩⟩
  · simp only [main_dispatch, Prod.mk.injEq] at h
    right
    exact ⟨h.2.symm, _, h.1.symm⟩
  · simp only [main_dispatch, Prod.mk.injEq] at h
    right
    exact ⟨h.2.symm, _, h.1.symm⟩
  · simp only [main_dispatch] at h
    split at h
    · rw [Prod.mk.injEq] at h
      right
      exact ⟨h.2.symm, _, h.1.symm⟩
    · revert h
      cases hd : decode stdin with
      | error e =>
        intro h
        rw [Prod.mk.injEq] at h
        right
        exact ⟨h.2.symm, _, h.1.symm⟩
      | ok params =>
        intro h
        cases hr : (if method = "sceneByURL" then runURL params
            else if method = "sceneByFragment" then runFrag params
            else .error (.fatal ("Unknown scrape method \x27" ++ method ++ "\x27"))) with
        | ok j =>
          simp only [hr, Prod.mk.injEq] at h
          left
          exact h.2.symm
        | error f =>
          simp only [hr, Prod.mk.injEq] at h
          right
          refine ⟨h.2.symm, ?_⟩
          cases f with
          | fatal m => exact ⟨m, h.1.symm⟩
          | exn i => exact ⟨"Unhandled exception in scraper: " ++ i, h.1.symm⟩

/-- C4 (amended): the dispatcher exits with status 0 or 1 and never lets an
exception escape (it is a total function of the pipeline outcomes); whenever
it exits with status 1 the printed object is exactly a bare failure object
with an `error` key; and every fail() or uncaught-exception outcome of the
selected scrape operation is printed as that failure object with exit status
1. The claim as stated is false in the other direction: an error dict
returned as a normal result — a malformed remote response surfaced by the
client layer — is printed with exit status 0 (see the counterexample). -/
theorem claim_C4_failure_paths (runURL runFrag : Json → Except Failure Json)
    (argv : List String) (stdin : String) (decode : String → Except String Json) :
    ((main_dispatch runURL runFrag argv stdin decode).2 = 0 ∨
      (main_dispatch runURL runFrag argv stdin decode).2 = 1) ∧
    ((main_dispatch runURL runFrag argv stdin decode).2 = 1 →
      ∃ m, (main_dispatch runURL runFrag argv stdin decode).1 =
        Json.obj [("error", Json.str m)]) ∧
    (∀ prog rest params f, argv = prog :: "sceneByFragment" :: rest →
      pyStripStr stdin ≠ "" → decode stdin = .ok params → runFrag params = .error f →
      main_dispatch runURL runFrag argv stdin decode = (failure_output f, 1)) := by
  have key := main_dispatch_cases runURL runFrag argv stdin decode
    (main_dispatch runURL runFrag argv stdin decode).1
    (main_dispatch runURL runFrag argv stdin decode).2 rfl
  refine ⟨?_, ?_, ?_⟩
  · rcases key with h | ⟨h, _⟩
    · left; exact h
    · right; exact h
  · intro h1
    rcases key with h | ⟨_, hm⟩
    · rw [h] at h1; cases h1
    · exact hm
  · intro prog rest params f ha hs hd hf
    subst ha
    simp only [main_dispatch]
    rw [if_neg hs]
    simp only [hd]
    rw [if_neg (by decide), if_pos trivial]
    simp only [hf]

/-- C4 witness: the dispatcher turns a fail() outcome of `sceneByFragment`
into the failure object with exit status 1, and every status-1 exit carries
an error object. -/
theorem claim_C4_witness :
    main_dispatch (fun _ => .ok (Json.obj [])) (fun _ => .error (.fatal "boom"))
        ["scraper", "sceneByFragment"] "x" (fun _ => .ok (Json.obj [])) =
      (failure_output (.fatal "boom"), 1) ∧
    ∃ m, (main_dispatch (fun _ => .ok (Json.obj [])) (fun _ => .error (.fatal "boom"))
        ["scraper", "sceneByFragment"] "x" (fun _ => .ok (Json.obj []))).1 =
      Json.obj [("error", Json.str m)] :=
  have hmain := (claim_C4_failure_paths (fun _ => .ok (Json.obj []))
      (fun _ => .error (.fatal "boom")) ["scraper", "sceneByFragment"] "x"
      (fun _ => .ok (Json.obj []))).2.2 "scraper" [] (Json.obj []) (.fatal "boom")
      rfl (by decide) rfl rfl
  ⟨hmain,
   (claim_C4_failure_paths (fun _ => .ok (Json.obj [])) (fun _ => .error (.fatal "boom"))
      ["scraper", "sceneByFragment"] "x" (fun _ => .ok (Json.obj []))).2.1
      (by rw [hmain])⟩

/-- C4 counterexample: a malformed remote search response is surfaced by the
client layer as an error dict, which `_search_videos_with_retries` returns as
a normal result; the dispatcher prints this failure-shaped object and exits
with status 0, falsifying the claim that a failure object on stdout always
comes with exit status 1. The whole pipeline is exercised: the fragment
carries the filename Thicc_5.mp4, the query builds to a non-empty string,
and the first search attempt yields the error dict. -/
theorem claim_C4_counterexample :
    main_dispatch (fun _ => .error (.fatal "unused"))
        (sceneByFragment (fun _ => .error "unused")
          (fun _ _ => Json.obj [("error", Json.str "search_videos: non-JSON response"),
            ("status", Json.num 500)])
          (fun _ _ => 0))
        ["scraper", "sceneByFragment"] "input"
        (fun _ => .ok (Json.obj [("filename", Json.str "Thicc_5.mp4")])) =
      (Json.obj [("error", Json.str "search_videos: non-JSON response"),
        ("status", Json.num 500)], 0) ∧
    jhasKey (Json.obj [("error", Json.str "search_videos: non-JSON response"),
      ("status", Json.num 500)]) "error" = true := by
  constructor
  · with_unfolding_all rfl
  · rfl

end PMVH
